import Mathlib

/-!
Verification of the candles-sdk time-bucketing core.

The Rust sources under src/ are shallowly embedded below:
* instants are modelled as whole seconds since the Unix epoch (`Int`),
  matching the `timestamp()` values the code computes with;
* the proleptic Gregorian calendar used by the chrono dependency is
  modelled by `daysFromCivil` / `yearOfD` / `monthOfD`;
* Rust `%` on machine integers is `Int.tmod`; unsigned wrap-around is an
  explicit `emod` by a power of two.
-/

set_option maxHeartbeats 2000000

namespace Candles

/-! Model of the proleptic Gregorian calendar (UTC) as used by the chrono
library: day numbers are days since 1970-01-01. -/

/-- Days before year-of-era `y` inside one 400-year era (March-based years). -/
def dbE (y : Int) : Int := 365 * y + y / 4 - y / 100

/-- Day-of-year offset of the first day of shifted month `mp`
(`mp = 0` is March, `mp = 11` is February). -/
def mpDays (mp : Int) : Int := (153 * mp + 2) / 5

/-- Day number (1970-01-01 = 0) of a proleptic Gregorian civil date. -/
def daysFromCivil (y m d : Int) : Int :=
  let yshift : Int := if m ≤ 2 then y - 1 else y
  let era : Int := yshift / 400
  let yoe : Int := yshift - era * 400
  let mp : Int := if 2 < m then m - 3 else m + 9
  era * 146097 + dbE yoe + mpDays mp + d - 1 - 719468

/-- Era (400-year block) of a day number. -/
def eraOf (z : Int) : Int := (z + 719468) / 146097

/-- Day within the era, in `[0, 146097)`. -/
def doeOf (z : Int) : Int := (z + 719468) % 146097

/-- Century within the era (0..3). -/
def cOf (doe : Int) : Int := if doe / 36524 ≤ 3 then doe / 36524 else 3

/-- Day within the century. -/
def dcOf (doe : Int) : Int := doe - 36524 * cOf doe

/-- Four-year block within the century (0..24). -/
def qOf (doe : Int) : Int := dcOf doe / 1461

/-- Day within the four-year block. -/
def dqOf (doe : Int) : Int := dcOf doe - 1461 * qOf doe

/-- Year within the four-year block (0..3). -/
def y1Of (doe : Int) : Int := if dqOf doe / 365 ≤ 3 then dqOf doe / 365 else 3

/-- Year of the era (0..399) containing a day of the era. -/
def yoeOfD (doe : Int) : Int := 100 * cOf doe + 4 * qOf doe + y1Of doe

/-- Day of the (March-based) year, 0..365. -/
def doyOf (doe : Int) : Int := dqOf doe - 365 * y1Of doe

/-- Shifted month (0 = March .. 11 = February) of a day of the era. -/
def mpOf (doe : Int) : Int := (5 * doyOf doe + 2) / 153

/-- Calendar month (1..12) of a day number. -/
def monthOfD (z : Int) : Int :=
  if mpOf (doeOf z) < 10 then mpOf (doeOf z) + 3 else mpOf (doeOf z) - 9

/-- Calendar year of a day number. -/
def yearOfD (z : Int) : Int :=
  (if mpOf (doeOf z) < 10 then 0 else 1) + yoeOfD (doeOf z) + 400 * eraOf z

theorem era_doe_spec (z : Int) :
    eraOf z * 146097 + doeOf z = z + 719468 ∧ 0 ≤ doeOf z ∧ doeOf z < 146097 := by
  unfold eraOf doeOf
  omega

theorem dbE_decompose (c q y1 : Int) (hc : 0 ≤ c) (hc2 : c ≤ 3) (hq : 0 ≤ q)
    (hq2 : q ≤ 24) (hy : 0 ≤ y1) (hy2 : y1 ≤ 3) :
    dbE (100 * c + 4 * q + y1) = 36524 * c + 1461 * q + 365 * y1 := by
  unfold dbE
  omega

theorem dbE_400 : dbE 400 = 146096 := by decide

theorem level_c (doe : Int) (h0 : 0 ≤ doe) (h1 : doe < 146097) :
    0 ≤ cOf doe ∧ cOf doe ≤ 3 ∧ 0 ≤ dcOf doe ∧ dcOf doe ≤ 36524 ∧
    (dcOf doe = 36524 → doe = 146096 ∧ cOf doe = 3) ∧
    36524 * cOf doe + dcOf doe = doe := by
  unfold dcOf cOf
  omega

theorem level_q (doe : Int) (h0 : 0 ≤ dcOf doe) (h1 : dcOf doe ≤ 36524) :
    0 ≤ qOf doe ∧ qOf doe ≤ 24 ∧ 0 ≤ dqOf doe ∧ dqOf doe ≤ 1460 ∧
    (qOf doe = 24 → dqOf doe ≤ 1459 ∨ dcOf doe = 36524) ∧
    1461 * qOf doe + dqOf doe = dcOf doe := by
  unfold dqOf qOf
  omega

theorem level_y1 (doe : Int) (h0 : 0 ≤ dqOf doe) (h1 : dqOf doe ≤ 1460) :
    0 ≤ y1Of doe ∧ y1Of doe ≤ 3 ∧ 0 ≤ doyOf doe ∧ doyOf doe ≤ 365 ∧
    (doyOf doe = 365 → y1Of doe = 3 ∧ dqOf doe = 1460) ∧
    365 * y1Of doe + doyOf doe = dqOf doe := by
  unfold doyOf y1Of
  omega

/-- Arithmetic core of the cascade extraction, over plain integers. -/
theorem cascade_core (C Q Y1 DC DQ DOY doe : Int)
    (hC0 : 0 ≤ C) (hC3 : C ≤ 3)
    (hDC0 : 0 ≤ DC) (hDC1 : DC ≤ 36524)
    (hDCtop : DC = 36524 → doe = 146096 ∧ C = 3)
    (hCsum : 36524 * C + DC = doe)
    (hQ0 : 0 ≤ Q) (hQ24 : Q ≤ 24)
    (hDQ0 : 0 ≤ DQ) (hDQ1 : DQ ≤ 1460)
    (hQtop : Q = 24 → DQ ≤ 1459 ∨ DC = 36524)
    (hQsum : 1461 * Q + DQ = DC)
    (hY0 : 0 ≤ Y1) (hY3 : Y1 ≤ 3)
    (hDOY0 : 0 ≤ DOY) (hDOY1 : DOY ≤ 365)
    (hYtop : DOY = 365 → Y1 = 3 ∧ DQ = 1460)
    (hYsum : 365 * Y1 + DOY = DQ) :
    0 ≤ 100 * C + 4 * Q + Y1 ∧ 100 * C + 4 * Q + Y1 ≤ 399 ∧
    dbE (100 * C + 4 * Q + Y1) + DOY = doe ∧
    ((doe = 146096 ∧ 100 * C + 4 * Q + Y1 = 399 ∧ DOY = 365) ∨
      doe < dbE (100 * C + 4 * Q + Y1 + 1)) := by
  have e1 := dbE_decompose C Q Y1 hC0 hC3 hQ0 hQ24 hY0 hY3
  refine ⟨by omega, by omega, by omega, ?_⟩
  rcases lt_or_le Y1 3 with hy3 | hy3
  · have e0 := dbE_decompose C Q (Y1 + 1) hC0 hC3 hQ0 hQ24 (by omega) (by omega)
    have e2 : dbE (100 * C + 4 * Q + Y1 + 1)
        = 36524 * C + 1461 * Q + 365 * (Y1 + 1) := by
      rw [show 100 * C + 4 * Q + Y1 + 1 = 100 * C + 4 * Q + (Y1 + 1) by omega]
      exact e0
    right
    omega
  · rcases lt_or_le Q 24 with hq24 | hq24
    · have e0 := dbE_decompose C (Q + 1) 0 hC0 hC3 (by omega) (by omega) le_rfl (by omega)
      have e2 : dbE (100 * C + 4 * Q + Y1 + 1)
          = 36524 * C + 1461 * (Q + 1) + 365 * 0 := by
        rw [show 100 * C + 4 * Q + Y1 + 1 = 100 * C + 4 * (Q + 1) + 0 by omega]
        exact e0
      right
      omega
    · rcases lt_or_le C 3 with hc3 | hc3
      · have e0 := dbE_decompose (C + 1) 0 0 (by omega) (by omega) le_rfl (by omega) le_rfl (by omega)
        have e2 : dbE (100 * C + 4 * Q + Y1 + 1)
            = 36524 * (C + 1) + 1461 * 0 + 365 * 0 := by
          rw [show 100 * C + 4 * Q + Y1 + 1 = 100 * (C + 1) + 4 * 0 + 0 by omega]
          exact e0
        right
        omega
      · have e2 : dbE (100 * C + 4 * Q + Y1 + 1) = 146096 := by
          rw [show 100 * C + 4 * Q + Y1 + 1 = 400 by omega]
          exact dbE_400
        omega

/-- Core cascade facts: the extracted year of era and day of year decompose
the day of era, and the day of year stays below the length of that year. -/
theorem cascade (doe : Int) (h0 : 0 ≤ doe) (h1 : doe < 146097) :
    0 ≤ yoeOfD doe ∧ yoeOfD doe ≤ 399 ∧ 0 ≤ doyOf doe ∧ doyOf doe ≤ 365 ∧
    dbE (yoeOfD doe) + doyOf doe = doe ∧
    ((doe = 146096 ∧ yoeOfD doe = 399 ∧ doyOf doe = 365) ∨
      doe < dbE (yoeOfD doe + 1)) := by
  have hc := level_c doe h0 h1
  have hq := level_q doe hc.2.2.1 hc.2.2.2.1
  have hy := level_y1 doe hq.2.2.1 hq.2.2.2.1
  have key := cascade_core (cOf doe) (qOf doe) (y1Of doe) (dcOf doe) (dqOf doe)
    (doyOf doe) doe hc.1 hc.2.1 hc.2.2.1 hc.2.2.2.1 hc.2.2.2.2.1 hc.2.2.2.2.2
    hq.1 hq.2.1 hq.2.2.1 hq.2.2.2.1 hq.2.2.2.2.1 hq.2.2.2.2.2
    hy.1 hy.2.1 hy.2.2.1 hy.2.2.2.1 hy.2.2.2.2.1 hy.2.2.2.2.2
  exact ⟨key.1, key.2.1, hy.2.2.1, hy.2.2.2.1, key.2.2.1, key.2.2.2⟩

theorem mp_facts (doe : Int) (h0 : 0 ≤ doyOf doe) (h1 : doyOf doe ≤ 365) :
    0 ≤ mpOf doe ∧ mpOf doe ≤ 11 ∧ mpDays (mpOf doe) ≤ doyOf doe ∧
    doyOf doe < mpDays (mpOf doe + 1) := by
  unfold mpOf mpDays
  omega

theorem dfc_eval (era yoe mp : Int) (h1 : 0 ≤ yoe) (h2 : yoe ≤ 399)
    (h3 : 0 ≤ mp) (h4 : mp ≤ 11) :
    daysFromCivil ((if mp < 10 then 0 else 1) + yoe + 400 * era)
        (if mp < 10 then mp + 3 else mp - 9) 1
      = era * 146097 + dbE yoe + mpDays mp - 719468 := by
  unfold daysFromCivil dbE mpDays
  dsimp only
  split_ifs <;> omega

/-- Next calendar month, as computed in `CandleType::get_duration`. -/
def nextMonthM (m : Int) : Int := if m = 12 then 1 else m + 1

/-- Year of the next calendar month, as computed in `CandleType::get_duration`. -/
def nextMonthY (y m : Int) : Int := if m = 12 then y + 1 else y

theorem mpDays_bounds (mp : Int) (h0 : 0 ≤ mp) (h1 : mp ≤ 11) :
    0 ≤ mpDays mp ∧ mpDays mp ≤ 337 := by
  unfold mpDays
  omega

theorem mpDays_diff (mp : Int) (h0 : 0 ≤ mp) (h1 : mp ≤ 10) :
    28 ≤ mpDays (mp + 1) - mpDays mp ∧ mpDays (mp + 1) - mpDays mp ≤ 31 := by
  unfold mpDays
  omega

theorem mpDays_roundtrip (mp : Int) (h0 : 0 ≤ mp) (h1 : mp ≤ 11) :
    (5 * mpDays mp + 2) / 153 = mp := by
  unfold mpDays
  omega

theorem dbE_diff (w : Int) (h0 : 0 ≤ w) (h1 : w ≤ 398) :
    365 ≤ dbE (w + 1) - dbE w ∧ dbE (w + 1) - dbE w ≤ 366 := by
  unfold dbE
  omega

theorem dbE_399 : dbE 399 = 145731 := by decide

theorem dbE_0 : dbE 0 = 0 := by decide

theorem dfc_eval_next (era yoe mp : Int) (h1 : 0 ≤ yoe) (h2 : yoe ≤ 399)
    (h3 : 0 ≤ mp) (h4 : mp ≤ 11) :
    daysFromCivil
        (nextMonthY ((if mp < 10 then 0 else 1) + yoe + 400 * era)
          (if mp < 10 then mp + 3 else mp - 9))
        (nextMonthM (if mp < 10 then mp + 3 else mp - 9)) 1
      = if mp ≤ 10 then era * 146097 + dbE yoe + mpDays (mp + 1) - 719468
        else if yoe ≤ 398 then era * 146097 + dbE (yoe + 1) + mpDays 0 - 719468
        else (era + 1) * 146097 + dbE 0 + mpDays 0 - 719468 := by
  unfold nextMonthY nextMonthM daysFromCivil dbE mpDays
  dsimp only
  split_ifs <;> omega

theorem ym_triple (y m : Int) (h1 : 1 ≤ m) (h2 : m ≤ 12) :
    ∃ era yoe mp : Int, 0 ≤ yoe ∧ yoe ≤ 399 ∧ 0 ≤ mp ∧ mp ≤ 11 ∧
      y = (if mp < 10 then 0 else 1) + yoe + 400 * era ∧
      m = (if mp < 10 then mp + 3 else mp - 9) := by
  refine ⟨(if m ≤ 2 then y - 1 else y) / 400, (if m ≤ 2 then y - 1 else y) % 400,
    if 2 < m then m - 3 else m + 9, ?_, ?_, ?_, ?_, ?_, ?_⟩ <;>
    split_ifs <;> omega

theorem month_succ_spacing (y m : Int) (h1 : 1 ≤ m) (h2 : m ≤ 12) :
    daysFromCivil y m 1 + 28 ≤ daysFromCivil (nextMonthY y m) (nextMonthM m) 1 ∧
    daysFromCivil (nextMonthY y m) (nextMonthM m) 1 ≤ daysFromCivil y m 1 + 31 := by
  obtain ⟨era, yoe, mp, hy0, hy1, hm0, hm1, hy, hm⟩ := ym_triple y m h1 h2
  subst hy
  subst hm
  rw [dfc_eval era yoe mp hy0 hy1 hm0 hm1, dfc_eval_next era yoe mp hy0 hy1 hm0 hm1]
  rcases lt_or_le mp 10 with hc | hc
  · have hd := mpDays_diff mp hm0 (by omega)
    rw [if_pos (by omega : mp ≤ 10)]
    omega
  · rcases eq_or_lt_of_le hc with hc10 | hc11
    · have hd := mpDays_diff mp hm0 (by omega)
      rw [if_pos (by omega : mp ≤ 10)]
      omega
    · have hmp11 : mp = 11 := by omega
      subst hmp11
      rw [if_neg (by omega)]
      rcases lt_or_le yoe 399 with hy398 | hy399
      · rw [if_pos (by omega : yoe ≤ 398)]
        have hd := dbE_diff yoe hy0 (by omega)
        have e1 : mpDays 0 = 0 := by decide
        have e2 : mpDays 11 = 337 := by decide
        have e3 : mpDays 12 = 367 := by decide
        omega
      · have hy399e : yoe = 399 := by omega
        subst hy399e
        rw [if_neg (by omega)]
        have e1 : mpDays 0 = 0 := by decide
        have e2 : mpDays 11 = 337 := by decide
        have := dbE_399
        have := dbE_0
        omega

theorem monthOfD_range (z : Int) : 1 ≤ monthOfD z ∧ monthOfD z ≤ 12 := by
  have hd := era_doe_spec z
  have hc := cascade (doeOf z) hd.2.1 hd.2.2
  have hmp := mp_facts (doeOf z) hc.2.2.1 hc.2.2.2.1
  unfold monthOfD
  split_ifs <;> omega

theorem day_start_le (z : Int) :
    daysFromCivil (yearOfD z) (monthOfD z) 1 ≤ z := by
  have hd := era_doe_spec z
  have hc := cascade (doeOf z) hd.2.1 hd.2.2
  have hmp := mp_facts (doeOf z) hc.2.2.1 hc.2.2.2.1
  have he := dfc_eval (eraOf z) (yoeOfD (doeOf z)) (mpOf (doeOf z))
    hc.1 hc.2.1 hmp.1 hmp.2.1
  unfold yearOfD monthOfD
  rw [he]
  omega

theorem day_end_gt (z : Int) :
    z < daysFromCivil (nextMonthY (yearOfD z) (monthOfD z))
          (nextMonthM (monthOfD z)) 1 := by
  have hd := era_doe_spec z
  have hc := cascade (doeOf z) hd.2.1 hd.2.2
  have hmp := mp_facts (doeOf z) hc.2.2.1 hc.2.2.2.1
  have he := dfc_eval_next (eraOf z) (yoeOfD (doeOf z)) (mpOf (doeOf z))
    hc.1 hc.2.1 hmp.1 hmp.2.1
  unfold yearOfD monthOfD
  rw [he]
  have e1 : mpDays 0 = 0 := by decide
  have e0 : dbE 0 = 0 := dbE_0
  rcases lt_or_le (mpOf (doeOf z)) 11 with h10 | h11
  · rw [if_pos (by omega : mpOf (doeOf z) ≤ 10)]
    omega
  · rw [if_neg (by omega : ¬ mpOf (doeOf z) ≤ 10)]
    rcases hc.2.2.2.2.2 with htop | hstrict
    · rw [if_neg (by omega : ¬ yoeOfD (doeOf z) ≤ 398)]
      omega
    · rcases lt_or_le (yoeOfD (doeOf z)) 399 with hy398 | hy399
      · rw [if_pos (by omega : yoeOfD (doeOf z) ≤ 398)]
        omega
      · rw [if_neg (by omega : ¬ yoeOfD (doeOf z) ≤ 398)]
        omega

theorem cascade_inverse (C Q Y1 D : Int) (hC0 : 0 ≤ C) (hC1 : C ≤ 3)
    (hQ0 : 0 ≤ Q) (hQ1 : Q ≤ 24) (hY0 : 0 ≤ Y1) (hY1b : Y1 ≤ 3)
    (hD0 : 0 ≤ D) (hD1 : D ≤ 337) :
    yoeOfD (36524 * C + 1461 * Q + 365 * Y1 + D) = 100 * C + 4 * Q + Y1 ∧
    doyOf (36524 * C + 1461 * Q + 365 * Y1 + D) = D := by
  have h1 : cOf (36524 * C + 1461 * Q + 365 * Y1 + D) = C := by
    unfold cOf
    split_ifs <;> omega
  have h2 : dcOf (36524 * C + 1461 * Q + 365 * Y1 + D) = 1461 * Q + 365 * Y1 + D := by
    unfold dcOf
    rw [h1]
    ring
  have h3 : qOf (36524 * C + 1461 * Q + 365 * Y1 + D) = Q := by
    unfold qOf
    rw [h2]
    omega
  have h4 : dqOf (36524 * C + 1461 * Q + 365 * Y1 + D) = 365 * Y1 + D := by
    unfold dqOf
    rw [h2, h3]
    ring
  have h5 : y1Of (36524 * C + 1461 * Q + 365 * Y1 + D) = Y1 := by
    unfold y1Of
    rw [h4]
    split_ifs <;> omega
  have h6 : doyOf (36524 * C + 1461 * Q + 365 * Y1 + D) = D := by
    unfold doyOf
    rw [h4, h5]
    ring
  exact ⟨by unfold yoeOfD; rw [h1, h3, h5], h6⟩

/-- Extraction of year and month at a first-of-month day number. -/
theorem extract_month_start (y m : Int) (h1 : 1 ≤ m) (h2 : m ≤ 12) :
    yearOfD (daysFromCivil y m 1) = y ∧ monthOfD (daysFromCivil y m 1) = m := by
  obtain ⟨era, yoe, mp, hy0, hy1, hm0, hm1, hy, hm⟩ := ym_triple y m h1 h2
  subst hy
  subst hm
  rw [dfc_eval era yoe mp hy0 hy1 hm0 hm1]
  obtain ⟨C, Q, Y1, hC0, hC1, hQ0, hQ1, hY0, hY1b, hsum⟩ :
      ∃ C Q Y1 : Int, 0 ≤ C ∧ C ≤ 3 ∧ 0 ≤ Q ∧ Q ≤ 24 ∧ 0 ≤ Y1 ∧ Y1 ≤ 3 ∧
        yoe = 100 * C + 4 * Q + Y1 :=
    ⟨yoe / 100, yoe % 100 / 4, yoe % 100 % 4, by omega, by omega, by omega,
      by omega, by omega, by omega, by omega⟩
  subst hsum
  rw [dbE_decompose C Q Y1 hC0 hC1 hQ0 hQ1 hY0 hY1b]
  have hD := mpDays_bounds mp hm0 hm1
  have hdoe : doeOf (era * 146097 + (36524 * C + 1461 * Q + 365 * Y1) + mpDays mp
        - 719468)
      = 36524 * C + 1461 * Q + 365 * Y1 + mpDays mp := by
    unfold doeOf
    omega
  have hera : eraOf (era * 146097 + (36524 * C + 1461 * Q + 365 * Y1) + mpDays mp
        - 719468) = era := by
    unfold eraOf
    omega
  have hinv := cascade_inverse C Q Y1 (mpDays mp) hC0 hC1 hQ0 hQ1 hY0 hY1b hD.1 hD.2
  have hmpOf : mpOf (36524 * C + 1461 * Q + 365 * Y1 + mpDays mp) = mp := by
    unfold mpOf
    rw [hinv.2]
    exact mpDays_roundtrip mp hm0 hm1
  constructor
  · unfold yearOfD
    rw [hdoe, hera, hmpOf, hinv.1]
  · unfold monthOfD
    rw [hdoe, hmpOf]

/-- Day number of the first day of month number `i` (months since year 0). -/
def monthStartIdx (i : Int) : Int := daysFromCivil ((i - 1) / 12) ((i - 1) % 12 + 1) 1

theorem monthStartIdx_succ (i : Int) :
    monthStartIdx i + 28 ≤ monthStartIdx (i + 1) ∧
    monthStartIdx (i + 1) ≤ monthStartIdx i + 31 := by
  have h := month_succ_spacing ((i - 1) / 12) ((i - 1) % 12 + 1) (by omega) (by omega)
  have e1 : nextMonthY ((i - 1) / 12) ((i - 1) % 12 + 1) = (i + 1 - 1) / 12 := by
    unfold nextMonthY
    split_ifs <;> omega
  have e2 : nextMonthM ((i - 1) % 12 + 1) = (i + 1 - 1) % 12 + 1 := by
    unfold nextMonthM
    split_ifs <;> omega
  unfold monthStartIdx
  rw [← e1, ← e2]
  exact h

theorem monthStartIdx_steps (k : Nat) (i : Int) :
    monthStartIdx i + 28 * k ≤ monthStartIdx (i + k) := by
  induction k with
  | zero => simp
  | succ n ih =>
      have h := monthStartIdx_succ (i + n)
      have e : ((n + 1 : Nat) : Int) = (n : Int) + 1 := by push_cast; ring
      rw [e, show i + ((n : Int) + 1) = i + (n : Int) + 1 by ring]
      omega

/-- Strict monotonicity of first-of-month day numbers in the month index,
with a 28-day-per-month lower bound on the spacing. -/
theorem monthStart_mono (y1 m1 y2 m2 : Int) (h11 : 1 ≤ m1) (h12 : m1 ≤ 12)
    (h21 : 1 ≤ m2) (h22 : m2 ≤ 12)
    (hlt : daysFromCivil y1 m1 1 < daysFromCivil y2 m2 1) :
    12 * y1 + m1 < 12 * y2 + m2 ∧
    28 * (12 * y2 + m2 - (12 * y1 + m1))
      ≤ daysFromCivil y2 m2 1 - daysFromCivil y1 m1 1 := by
  have e1 : monthStartIdx (12 * y1 + m1) = daysFromCivil y1 m1 1 := by
    unfold monthStartIdx
    rw [show 12 * y1 + m1 - 1 = 12 * y1 + (m1 - 1) by ring]
    rw [show (12 * y1 + (m1 - 1)) / 12 = y1 by omega,
      show (12 * y1 + (m1 - 1)) % 12 + 1 = m1 by omega]
  have e2 : monthStartIdx (12 * y2 + m2) = daysFromCivil y2 m2 1 := by
    unfold monthStartIdx
    rw [show 12 * y2 + m2 - 1 = 12 * y2 + (m2 - 1) by ring]
    rw [show (12 * y2 + (m2 - 1)) / 12 = y2 by omega,
      show (12 * y2 + (m2 - 1)) % 12 + 1 = m2 by omega]
  rcases lt_or_le (12 * y1 + m1) (12 * y2 + m2) with hi | hi
  · refine ⟨hi, ?_⟩
    have hk := monthStartIdx_steps (12 * y2 + m2 - (12 * y1 + m1)).toNat (12 * y1 + m1)
    have hcast : ((12 * y2 + m2 - (12 * y1 + m1)).toNat : Int)
        = 12 * y2 + m2 - (12 * y1 + m1) := by omega
    rw [hcast, show 12 * y1 + m1 + (12 * y2 + m2 - (12 * y1 + m1)) = 12 * y2 + m2
      by ring, e1, e2] at hk
    omega
  · exfalso
    have hk := monthStartIdx_steps (12 * y1 + m1 - (12 * y2 + m2)).toNat (12 * y2 + m2)
    have hcast : ((12 * y1 + m1 - (12 * y2 + m2)).toNat : Int)
        = 12 * y1 + m1 - (12 * y2 + m2) := by omega
    rw [hcast, show 12 * y2 + m2 + (12 * y1 + m1 - (12 * y2 + m2)) = 12 * y1 + m1
      by ring, e1, e2] at hk
    omega

/-! Embedding of `src/models/candle_type.rs`. Instants are whole seconds
since the Unix epoch, the value `DateTime::timestamp()` returns. Rust `%`
on `i64` is `Int.tmod`. -/

/-- The `CandleType` enum (granularities), in declaration order. -/
inductive CandleType where
  | Minute
  | Hour
  | Day
  | Month
  | ThreeMinutes
  | FiveMinutes
  | FifteenMinutes
  | ThirtyMinutes
  | TwoHours
  | FourHours
  | SixHours
  | EightHours
  | TwelveHours
  | ThreeDays
  | SevenDays
deriving DecidableEq, Repr

/-- The `#[repr(i32)]` discriminants of `CandleType`. -/
def CandleType.toCode : CandleType → Int
  | .Minute => 0
  | .Hour => 1
  | .Day => 2
  | .Month => 3
  | .ThreeMinutes => 4
  | .FiveMinutes => 5
  | .FifteenMinutes => 6
  | .ThirtyMinutes => 7
  | .TwoHours => 8
  | .FourHours => 9
  | .SixHours => 10
  | .EightHours => 11
  | .TwelveHours => 12
  | .ThreeDays => 13
  | .SevenDays => 14

/-- The `TryFromPrimitive` conversion derived by num_enum: each valid
discriminant maps to its variant, anything else is a typed decode error
carrying the offending number. -/
def CandleType.tryFromCode (n : Int) : Except Int CandleType :=
  if n = 0 then .ok .Minute
  else if n = 1 then .ok .Hour
  else if n = 2 then .ok .Day
  else if n = 3 then .ok .Month
  else if n = 4 then .ok .ThreeMinutes
  else if n = 5 then .ok .FiveMinutes
  else if n = 6 then .ok .FifteenMinutes
  else if n = 7 then .ok .ThirtyMinutes
  else if n = 8 then .ok .TwoHours
  else if n = 9 then .ok .FourHours
  else if n = 10 then .ok .SixHours
  else if n = 11 then .ok .EightHours
  else if n = 12 then .ok .TwelveHours
  else if n = 13 then .ok .ThreeDays
  else if n = 14 then .ok .SevenDays
  else .error n

/-- Calendar year of an instant (chrono `DateTime::year()`). -/
def yearOf (t : Int) : Int := yearOfD (t / 86400)

/-- Calendar month (1..12) of an instant (chrono `DateTime::month()`). -/
def monthOf (t : Int) : Int := monthOfD (t / 86400)

/-- Instant of the first of the month of `t` at midnight
(`Utc.with_ymd_and_hms(t.year(), t.month(), 1, 0, 0, 0)`). -/
def monthStartSec (t : Int) : Int := 86400 * daysFromCivil (yearOf t) (monthOf t) 1

/-- `CandleType::get_start_date`, in seconds. Each fixed granularity
computes `timestamp_sec - timestamp_sec % K` with the modulus literally
taken from the source (note `ThreeDays` uses 604800 and `SevenDays`
1036800 there); `Month` rebuilds the first of the month. -/
def get_start_date (g : CandleType) (t : Int) : Int :=
  match g with
  | .Minute => t - Int.tmod t 60
  | .Hour => t - Int.tmod t 3600
  | .Day => t - Int.tmod t 86400
  | .Month => monthStartSec t
  | .ThreeMinutes => t - Int.tmod t 180
  | .FiveMinutes => t - Int.tmod t 300
  | .FifteenMinutes => t - Int.tmod t 900
  | .ThirtyMinutes => t - Int.tmod t 1800
  | .TwoHours => t - Int.tmod t 7200
  | .FourHours => t - Int.tmod t 14400
  | .SixHours => t - Int.tmod t 21600
  | .EightHours => t - Int.tmod t 28800
  | .TwelveHours => t - Int.tmod t 43200
  | .ThreeDays => t - Int.tmod t 604800
  | .SevenDays => t - Int.tmod t 1036800

/-- `CandleType::get_duration` as a number of seconds. For `Month` it is
the span from the first of the month of `t` to the first of the next
month, via the `month == 12` year rollover in the source. -/
def get_duration (g : CandleType) (t : Int) : Int :=
  match g with
  | .Minute => 60
  | .Hour => 3600
  | .Day => 86400
  | .Month =>
      86400 * daysFromCivil (nextMonthY (yearOf t) (monthOf t)) (nextMonthM (monthOf t)) 1
        - 86400 * daysFromCivil (yearOf t) (monthOf t) 1
  | .ThreeMinutes => 180
  | .FiveMinutes => 300
  | .FifteenMinutes => 900
  | .ThirtyMinutes => 1800
  | .TwoHours => 7200
  | .FourHours => 14400
  | .SixHours => 21600
  | .EightHours => 28800
  | .TwelveHours => 43200
  | .ThreeDays => 259200
  | .SevenDays => 604800

/-- `CandleType::get_end_date` = start of bucket plus duration at `t`. -/
def get_end_date (g : CandleType) (t : Int) : Int :=
  get_start_date g t + get_duration g t

/-- Reinterpret an integer as a signed 32-bit value (Rust `as i32`). -/
def asI32 (x : Int) : Int := (x + 2147483648) % 4294967296 - 2147483648

/-- Reinterpret an integer as an unsigned 64-bit value (Rust `as usize`
on a 64-bit target, after sign extension). -/
def asUsize (x : Int) : Int := x % 18446744073709551616

/-- `CandleType::get_dates_count`. The `Month` arm subtracts the `u32`
month numbers (wrapping on overflow) and casts the wrapped difference to
`i32`; the result is cast to `usize`. The `Minute` arm divides the span
by 60 with truncation (`num_minutes`), every other arm divides by the
constant duration with truncation. -/
def get_dates_count (g : CandleType) (dfrom dto : Int) : Int :=
  let fromS := get_start_date g dfrom
  let toS := get_end_date g dto
  match g with
  | .Month =>
      let yearDiff := yearOf toS - yearOf fromS
      let monthDiffU32 := (monthOf toS - monthOf fromS) % 4294967296
      asUsize (yearDiff * 12 + asI32 monthDiffU32)
  | .Minute => asUsize ((toS - fromS).tdiv 60)
  | _ => asUsize ((toS - fromS).tdiv (get_duration g dfrom))

/-- Loop body of `CandleType::get_start_dates`, made total with fuel:
`none` means the source loop has not finished within `fuel` iterations.
The accumulator stands for the `HashSet` of inserted dates. -/
def start_dates_loop (g : CandleType) (dateTo : Int) :
    Nat → Int → List Int → Option (List Int)
  | 0, _, _ => none
  | fuel + 1, lastDate, acc =>
      if lastDate < dateTo then
        let nextDate := get_start_date g lastDate + get_duration g lastDate
        let newLast := get_start_date g nextDate
        start_dates_loop g dateTo fuel newLast (newLast :: acc)
      else some acc

/-- `CandleType::get_start_dates` with fuel. -/
def get_start_dates (g : CandleType) (dfrom dto : Int) (fuel : Nat) :
    Option (List Int) :=
  let dateFrom := get_start_date g dfrom
  let dateTo := get_start_date g dto
  start_dates_loop g dateTo fuel (get_start_date g dateFrom) [dateFrom]

/-! Embedding of the cache types. `BidAskCandle` and `CandleData` live in
model files that are not part of the provided sources; their shape is
taken from the spec (sections 4.2 and 4.3) and from how
`candles_cache.rs` constructs them. Numeric rates are `f64` in the code;
no claim below examines rate arithmetic, so they are carried as `Int`. -/

/-- Modelled from the spec: the Bar Accumulator of section 4.2
(`CandleData` in `models/candle_data.rs`, absent from src/): one OHLCV
bucket with its bucket-start instant; `new` seeds all four rates from the
first tick, `update` folds a later tick. -/
structure CandleData where
  datetime : Int
  openV : Int
  highV : Int
  lowV : Int
  closeV : Int
  volume : Int
deriving DecidableEq, Repr

/-- Modelled from the spec: `CandleData::new(datetime, rate, volume)`. -/
def CandleData.new (datetime rate volume : Int) : CandleData :=
  ⟨datetime, rate, rate, rate, rate, volume⟩

/-- Modelled from the spec: `CandleData::update` folds one tick, leaving
the bucket identity unchanged. -/
def CandleData.update (c : CandleData) (_datetime rate volume : Int) : CandleData :=
  { c with highV := max c.highV rate, lowV := min c.lowV rate,
           closeV := rate, volume := c.volume + volume }

/-- Modelled from the spec: the Dual-Sided Bar of section 4.3
(`BidAskCandle` in `models/candle.rs`, absent from src/), with exactly
the fields `candles_cache.rs` constructs. -/
structure BidAskCandle where
  askData : CandleData
  bidData : CandleData
  candle_type : CandleType
  instrument : String
  datetime : Int
deriving DecidableEq, Repr

deriving instance DecidableEq for Except

/-- Candle key type: the spec (section 4.3) requires a deterministic,
collision-free composition of instrument, granularity code and bucket
start, modelled as the triple itself. -/
abbrev CandleId := String × Int × Int

/-- Modelled from the spec: `BidAskCandle::generate_id`. -/
def BidAskCandle.generate_id (instrument : String) (g : CandleType) (dt : Int) :
    CandleId :=
  (instrument, g.toCode, dt)

/-- Modelled from the spec: `BidAskCandle::get_id`, the key of the candle
itself. -/
def BidAskCandle.get_id (c : BidAskCandle) : CandleId :=
  BidAskCandle.generate_id c.instrument c.candle_type c.datetime

/-- Hash-map insert-or-replace on an association list (iteration order of
the `AHashMap` is unspecified, so an association list stands for it). -/
def mapInsert (k : CandleId) (v : BidAskCandle)
    (m : List (CandleId × BidAskCandle)) : List (CandleId × BidAskCandle) :=
  (k, v) :: m.filter (fun p => p.1 ≠ k)

/-- Hash-map lookup. -/
def mapFind (k : CandleId) (m : List (CandleId × BidAskCandle)) :
    Option BidAskCandle :=
  (m.find? (fun p => p.1 = k)).map (fun p => p.2)

/-- State of `CandlesCache` (`caches/candles_cache.rs`). -/
structure CandlesCache where
  candles_by_ids : List (CandleId × BidAskCandle)
  candle_types : List CandleType
  last_update_date : Option Int
deriving Repr, DecidableEq

/-- Helper of `dedupAdj`: `a` is the last element kept so far. -/
def dedupFrom (a : CandleType) : List CandleType → List CandleType
  | [] => [a]
  | b :: rest => if a = b then dedupFrom a rest else a :: dedupFrom b rest

/-- `Vec::dedup`: removes only consecutive repeated elements. -/
def dedupAdj : List CandleType → List CandleType
  | [] => []
  | a :: rest => dedupFrom a rest

/-- Stable insertion of one element into a list sorted by wire code. -/
def insertSorted (x : CandleType) : List CandleType → List CandleType
  | [] => [x]
  | y :: ys =>
      if y.toCode ≤ x.toCode then y :: insertSorted x ys else x :: y :: ys

/-- `Vec::sort` on `CandleType` values: a stable sort by the derived
order, which on this enum is the wire-code order. -/
def sortByCode (l : List CandleType) : List CandleType :=
  l.foldl (fun acc x => insertSorted x acc) []

/-- `CandlesCache::new`: note the source calls `dedup()` before
`sort()`. -/
def CandlesCache.new (types : List CandleType) : CandlesCache :=
  { candles_by_ids := []
    candle_types := sortByCode (dedupAdj types)
    last_update_date := none }

/-- `CandlesCache::insert`: stores a caller-supplied candle at its own
id, with no validation of its granularity. -/
def CandlesCache.insert (s : CandlesCache) (c : BidAskCandle) : CandlesCache :=
  { s with candles_by_ids := mapInsert c.get_id c s.candles_by_ids }

/-- Modelled from the spec: `BidAskCandle::update` folds the tick into
both sides, leaving identity fields unchanged. -/
def BidAskCandle.update (c : BidAskCandle) (datetime bid ask bidVol askVol : Int) :
    BidAskCandle :=
  { c with askData := c.askData.update datetime ask askVol
           bidData := c.bidData.update datetime bid bidVol }

/-- Per-granularity body of the `create_or_update` loop: update the
existing candle of this tick bucket or create a fresh one. -/
def couStep (datetime : Int) (instrument : String) (bid ask bidVol askVol : Int)
    (m : List (CandleId × BidAskCandle)) (g : CandleType) :
    List (CandleId × BidAskCandle) :=
  let cdt := get_start_date g datetime
  let id := BidAskCandle.generate_id instrument g cdt
  match m.find? (fun p => p.1 = id) with
  | some _ =>
      m.map (fun p =>
        if p.1 = id then (p.1, p.2.update datetime bid ask bidVol askVol) else p)
  | none =>
      mapInsert id
        { askData := CandleData.new datetime ask askVol
          bidData := CandleData.new datetime bid bidVol
          candle_type := g
          instrument := instrument
          datetime := cdt } m

/-- `CandlesCache::create_or_update`: fans one tick out to every
configured granularity, then stamps `last_update_date` (`now` stands for
`Utc::now()`). -/
def CandlesCache.create_or_update (s : CandlesCache) (datetime : Int)
    (instrument : String) (bid ask bidVol askVol now : Int) : CandlesCache :=
  { s with
    candles_by_ids :=
      (s.candle_types.foldl (couStep datetime instrument bid ask bidVol askVol)
        s.candles_by_ids)
    last_update_date := some now }

/-- `CandlesCache::calculate_candle_dates`: the per-granularity
bucket-floor map. -/
def CandlesCache.calculate_candle_dates (s : CandlesCache) (t : Int) :
    List (CandleType × Int) :=
  s.candle_types.foldl
    (fun m g => (g, get_start_date g t) :: m.filter (fun p => p.1 ≠ g)) []

/-- Lookup in the bucket-floor map. -/
def datesGet (m : List (CandleType × Int)) (g : CandleType) : Option Int :=
  (m.find? (fun p => p.1 = g)).map (fun p => p.2)

/-- Filtering pass of `CandlesCache::get_after`; `Except.error ()` models
the `expect("wrong calculate_candle_dates")` panic on a missing map
entry. -/
def collectAfter (dates : List (CandleType × Int)) :
    List (CandleId × BidAskCandle) → Except Unit (List BidAskCandle)
  | [] => .ok []
  | p :: rest =>
      match datesGet dates p.2.candle_type with
      | none => .error ()
      | some d =>
          match collectAfter dates rest with
          | .error e => .error e
          | .ok tail => .ok (if d ≤ p.2.datetime then p.2 :: tail else tail)

/-- `CandlesCache::get_after`. Returns `Except.error ()` when the source
would panic, `.ok none` for an empty cache, and `.ok (some bars)`
otherwise. -/
def CandlesCache.get_after (s : CandlesCache) (t : Int) :
    Except Unit (Option (List BidAskCandle)) :=
  if s.candles_by_ids.length = 0 then .ok none
  else
    match collectAfter (s.calculate_candle_dates t) s.candles_by_ids with
    | .error e => .error e
    | .ok l => .ok (some l)

/-- `HashMap::retain` with a removal count, as in `remove_before`:
`remove p = true` drops the entry and increments the count. -/
def retainCount (remove : CandleId × BidAskCandle → Bool) :
    List (CandleId × BidAskCandle) → List (CandleId × BidAskCandle) × Int
  | [] => ([], 0)
  | p :: rest =>
      let r := retainCount remove rest
      if remove p then (r.1, r.2 + 1) else (p :: r.1, r.2)

/-- Retention pass of `remove_before(None)`, with the per-entry map
lookup that can panic. -/
def retainBeforeAll (dates : List (CandleType × Int)) :
    List (CandleId × BidAskCandle) →
      Except Unit (List (CandleId × BidAskCandle) × Int)
  | [] => .ok ([], 0)
  | p :: rest =>
      match datesGet dates p.2.candle_type with
      | none => .error ()
      | some d =>
          match retainBeforeAll dates rest with
          | .error e => .error e
          | .ok r => .ok (if p.2.datetime ≤ d then (r.1, r.2 + 1) else (p :: r.1, r.2))

/-- `CandlesCache::remove_before`. The removal count is modelled exactly
(an `i32` in the source; a cache never holds `2^31` entries). -/
def CandlesCache.remove_before (s : CandlesCache) (t : Int)
    (og : Option CandleType) : Except Unit (CandlesCache × Int) :=
  match og with
  | some g =>
      let r := retainCount
        (fun p => decide (p.2.datetime ≤ get_start_date g t) &&
          decide (p.2.candle_type = g)) s.candles_by_ids
      .ok ({ s with candles_by_ids := r.1 }, r.2)
  | none =>
      match retainBeforeAll (s.calculate_candle_dates t) s.candles_by_ids with
      | .error e => .error e
      | .ok r => .ok ({ s with candles_by_ids := r.1 }, r.2)

/-- State of `CandlePricesCache` (`caches/candle_prices_cache.rs`): the
`BTreeMap<i64, CandleData>` is an association list whose well-formed
states keep keys strictly increasing. -/
structure CandlePricesCache where
  candle_type : CandleType
  prices_by_date : List (Int × CandleData)
deriving Repr

/-- `CandlePricesCache::new`. -/
def CandlePricesCache.new (g : CandleType) : CandlePricesCache :=
  { candle_type := g, prices_by_date := [] }

/-- `BTreeMap::insert` on the sorted association list. -/
def btreeInsert (k : Int) (v : CandleData) :
    List (Int × CandleData) → List (Int × CandleData)
  | [] => [(k, v)]
  | p :: rest =>
      if k < p.1 then (k, v) :: p :: rest
      else if k = p.1 then (k, v) :: rest
      else p :: btreeInsert k v rest

/-- `CandlePricesCache::init`: stores a prebuilt bar at its own
timestamp. -/
def CandlePricesCache.init (c : CandlePricesCache) (candle : CandleData) :
    CandlePricesCache :=
  { c with prices_by_date := (btreeInsert candle.datetime candle c.prices_by_date) }

/-- `CandlePricesCache::update`: folds a tick into the bucket of its
instant, creating the bar on first touch. -/
def CandlePricesCache.update (c : CandlePricesCache) (datetime rate volume : Int) :
    CandlePricesCache :=
  let candleDate := get_start_date c.candle_type datetime
  match c.prices_by_date.find? (fun p => p.1 = candleDate) with
  | some _ =>
      { c with prices_by_date := c.prices_by_date.map (fun p =>
          if p.1 = candleDate then (p.1, p.2.update datetime rate volume) else p) }
  | none =>
      { c with prices_by_date :=
          (btreeInsert candleDate (CandleData.new candleDate rate volume)
            c.prices_by_date) }

/-- `CandlePricesCache::get_by_date_range`: `BTreeMap::range(from..to)`
performs its invalid-range check only when the tree has a root, so on a
non-empty map it panics (modelled as `none`) when `from > to`, while on
an empty map it short-circuits to the empty iterator for any bounds;
otherwise it yields the entries with key in `[from, to)` in ascending
key order. -/
def CandlePricesCache.get_by_date_range (c : CandlePricesCache)
    (dateFrom dateTo : Int) : Option (List CandleData) :=
  if dateTo < dateFrom ∧ c.prices_by_date ≠ [] then none
  else some ((c.prices_by_date.filter
    (fun p => decide (dateFrom ≤ p.1) && decide (p.1 < dateTo))).map (fun p => p.2))

/-- `CandlePricesCache::clear`. -/
def CandlePricesCache.clear (c : CandlePricesCache) : CandlePricesCache :=
  { c with prices_by_date := [] }

/-! Timestamp-level corollaries of the calendar lemmas. -/

theorem monthOf_range (t : Int) : 1 ≤ monthOf t ∧ monthOf t ≤ 12 :=
  monthOfD_range (t / 86400)

theorem nextMonthM_range (m : Int) (h1 : 1 ≤ m) (h2 : m ≤ 12) :
    1 ≤ nextMonthM m ∧ nextMonthM m ≤ 12 := by
  unfold nextMonthM
  split_ifs <;> omega

/-- The month bucket of `t` contains `t`. -/
theorem month_containment (t : Int) :
    get_start_date CandleType.Month t ≤ t ∧ t < get_end_date CandleType.Month t := by
  have h1 := day_start_le (t / 86400)
  have h2 := day_end_gt (t / 86400)
  have e1 : get_start_date CandleType.Month t
      = 86400 * daysFromCivil (yearOfD (t / 86400)) (monthOfD (t / 86400)) 1 := rfl
  have e2 : get_duration CandleType.Month t
      = 86400 * daysFromCivil (nextMonthY (yearOfD (t / 86400)) (monthOfD (t / 86400)))
          (nextMonthM (monthOfD (t / 86400))) 1
        - 86400 * daysFromCivil (yearOfD (t / 86400)) (monthOfD (t / 86400)) 1 := rfl
  unfold get_end_date
  rw [e1, e2]
  omega

/-- The end of the month bucket is the start of the next month. -/
theorem month_end_eq (t : Int) :
    get_end_date CandleType.Month t
      = 86400 * daysFromCivil (nextMonthY (yearOf t) (monthOf t))
          (nextMonthM (monthOf t)) 1 := by
  unfold get_end_date get_start_date get_duration monthStartSec
  ring

/-- Year and month extrated back from a month-start instant. -/
theorem extract_at_sec (y m : Int) (h1 : 1 ≤ m) (h2 : m ≤ 12) :
    yearOf (86400 * daysFromCivil y m 1) = y ∧
    monthOf (86400 * daysFromCivil y m 1) = m := by
  have e : 86400 * daysFromCivil y m 1 / 86400 = daysFromCivil y m 1 := by omega
  unfold yearOf monthOf
  rw [e]
  exact extract_month_start y m h1 h2

/-- Floor and ceiling bounds of the fixed-stride bucket floor for
nonnegative instants. -/
theorem fixed_floor_bounds (t d : Int) (ht : 0 ≤ t) (hd : 0 < d) :
    t - Int.tmod t d ≤ t ∧ t < t - Int.tmod t d + d := by
  have h1 := Int.tmod_nonneg d ht
  have h2 : Int.tmod t d < d := by
    rw [Int.tmod_eq_emod ht hd.le]
    exact Int.emod_lt_of_pos t hd
  omega

/-! Claims about `CandleType`. -/

/-- C10: the wire codes are exactly 0..14 in the documented order,
decoding inverts encoding, and any code outside 0..=14 yields a
recoverable decode error carrying the offending value. -/
theorem c10_wire_codes :
    (CandleType.toCode .Minute = 0 ∧ CandleType.toCode .Hour = 1 ∧
      CandleType.toCode .Day = 2 ∧ CandleType.toCode .Month = 3 ∧
      CandleType.toCode .ThreeMinutes = 4 ∧ CandleType.toCode .FiveMinutes = 5 ∧
      CandleType.toCode .FifteenMinutes = 6 ∧ CandleType.toCode .ThirtyMinutes = 7 ∧
      CandleType.toCode .TwoHours = 8 ∧ CandleType.toCode .FourHours = 9 ∧
      CandleType.toCode .SixHours = 10 ∧ CandleType.toCode .EightHours = 11 ∧
      CandleType.toCode .TwelveHours = 12 ∧ CandleType.toCode .ThreeDays = 13 ∧
      CandleType.toCode .SevenDays = 14) ∧
    (∀ g : CandleType, CandleType.tryFromCode (CandleType.toCode g) = .ok g) ∧
    (∀ n : Int, n < 0 ∨ 14 < n → CandleType.tryFromCode n = .error n) := by
  refine ⟨by decide, fun g => by cases g <;> rfl, fun n hn => ?_⟩
  unfold CandleType.tryFromCode
  rw [if_neg (by omega : ¬ n = 0), if_neg (by omega : ¬ n = 1),
    if_neg (by omega : ¬ n = 2), if_neg (by omega : ¬ n = 3),
    if_neg (by omega : ¬ n = 4), if_neg (by omega : ¬ n = 5),
    if_neg (by omega : ¬ n = 6), if_neg (by omega : ¬ n = 7),
    if_neg (by omega : ¬ n = 8), if_neg (by omega : ¬ n = 9),
    if_neg (by omega : ¬ n = 10), if_neg (by omega : ¬ n = 11),
    if_neg (by omega : ¬ n = 12), if_neg (by omega : ¬ n = 13),
    if_neg (by omega : ¬ n = 14)]

/-- Witness for C10 at the out-of-range code 15. -/
theorem c10_wire_codes_witness : CandleType.tryFromCode 15 = .error 15 :=
  c10_wire_codes.2.2 15 (by norm_num)

/-- C1 counterexample: at the instants 259200 (3 days) and 604800
(7 days) after the epoch, `get_start_date` for `ThreeDays` and
`SevenDays` returns 0, while flooring by the `get_duration` values
(259200 s and 604800 s) would return the instant itself. -/
theorem c1_counterexample :
    get_start_date CandleType.ThreeDays 259200 = 0 ∧
    259200 - Int.tmod 259200 (get_duration CandleType.ThreeDays 259200) = 259200 ∧
    get_start_date CandleType.SevenDays 604800 = 0 ∧
    604800 - Int.tmod 604800 (get_duration CandleType.SevenDays 604800) = 604800 := by
  decide

/-- C1 amended: for every non-month granularity the start date is
`t - (t mod K)` with Rust truncated `%`, where `K` is the `get_duration`
value except that the source floors `ThreeDays` by 604800 s and
`SevenDays` by 1036800 s. -/
theorem c1_fixed_floor (t : Int) (g : CandleType) (hm : g ≠ CandleType.Month) :
    get_start_date g t =
      t - Int.tmod t
        (if g = CandleType.ThreeDays then 604800
         else if g = CandleType.SevenDays then 1036800
         else get_duration g t) := by
  cases g <;> first | exact absurd rfl hm | rfl

/-- Witness for C1 at the minute granularity and `t = 125`. -/
theorem c1_fixed_floor_witness :
    get_start_date CandleType.Minute 125 =
      125 - Int.tmod 125
        (if CandleType.Minute = CandleType.ThreeDays then 604800
         else if CandleType.Minute = CandleType.SevenDays then 1036800
         else get_duration CandleType.Minute 125) :=
  c1_fixed_floor 125 CandleType.Minute (by decide)

/-- The loop state of `get_start_dates` for `ThreeDays` is stuck at 0:
advancing by the 3-day duration and re-flooring by the 7-day modulus
lands back on 0, so no amount of fuel finishes the loop. -/
theorem three_days_loop_stuck :
    ∀ (fuel : Nat) (acc : List Int),
      start_dates_loop CandleType.ThreeDays 604800 fuel 0 acc = none := by
  intro fuel
  induction fuel with
  | zero => intro acc; rfl
  | succ n ih =>
      intro acc
      have e3 : get_start_date CandleType.ThreeDays
          (get_start_date CandleType.ThreeDays 0 + get_duration CandleType.ThreeDays 0)
          = 0 := by decide
      show (if (0 : Int) < 604800 then _ else _) = _
      rw [if_pos (by norm_num : (0 : Int) < 604800)]
      simp only [e3]
      exact ih (0 :: acc)

/-- C2: `get_start_dates(ThreeDays, epoch, epoch + 7 days)` never
terminates; the loop guard stays true with an unchanged state, so the
fuelled model returns `none` for every fuel. -/
theorem c2_get_start_dates_diverges (fuel : Nat) :
    get_start_dates CandleType.ThreeDays 0 604800 fuel = none := by
  have e1 : get_start_date CandleType.ThreeDays 0 = 0 := by decide
  have e2 : get_start_date CandleType.ThreeDays 604800 = 604800 := by decide
  unfold get_start_dates
  dsimp only
  rw [e1, e1, e2]
  exact three_days_loop_stuck fuel [0]

/-- C3 counterexample: containment fails for `ThreeDays` at the positive
instant 345600 (the bucket ends before the instant), and for `Minute` at
the negative instant -30 (the computed start lies after the instant). -/
theorem c3_counterexample :
    ¬ (get_start_date CandleType.ThreeDays 345600 ≤ 345600 ∧
        345600 < get_end_date CandleType.ThreeDays 345600) ∧
    ¬ (get_start_date CandleType.Minute (-30) ≤ -30 ∧
        (-30 : Int) < get_end_date CandleType.Minute (-30)) := by
  decide

/-- C3 amended: containment `start ≤ t < end` holds for every
granularity other than `ThreeDays` and `SevenDays`, for every
nonnegative instant, and for the month granularity at every instant. -/
theorem c3_containment (t : Int) (g : CandleType)
    (h3 : g ≠ CandleType.ThreeDays) (h7 : g ≠ CandleType.SevenDays)
    (ht : g = CandleType.Month ∨ 0 ≤ t) :
    get_start_date g t ≤ t ∧ t < get_end_date g t := by
  have hpos : g ≠ CandleType.Month → 0 ≤ t := by
    intro hg
    rcases ht with h | h
    · exact absurd h hg
    · exact h
  cases g with
  | Month => exact month_containment t
  | ThreeDays => exact absurd rfl h3
  | SevenDays => exact absurd rfl h7
  | Minute => exact fixed_floor_bounds t 60 (hpos (by decide)) (by norm_num)
  | Hour => exact fixed_floor_bounds t 3600 (hpos (by decide)) (by norm_num)
  | Day => exact fixed_floor_bounds t 86400 (hpos (by decide)) (by norm_num)
  | ThreeMinutes => exact fixed_floor_bounds t 180 (hpos (by decide)) (by norm_num)
  | FiveMinutes => exact fixed_floor_bounds t 300 (hpos (by decide)) (by norm_num)
  | FifteenMinutes => exact fixed_floor_bounds t 900 (hpos (by decide)) (by norm_num)
  | ThirtyMinutes => exact fixed_floor_bounds t 1800 (hpos (by decide)) (by norm_num)
  | TwoHours => exact fixed_floor_bounds t 7200 (hpos (by decide)) (by norm_num)
  | FourHours => exact fixed_floor_bounds t 14400 (hpos (by decide)) (by norm_num)
  | SixHours => exact fixed_floor_bounds t 21600 (hpos (by decide)) (by norm_num)
  | EightHours => exact fixed_floor_bounds t 28800 (hpos (by decide)) (by norm_num)
  | TwelveHours => exact fixed_floor_bounds t 43200 (hpos (by decide)) (by norm_num)

/-- Witness for C3 at the minute granularity and `t = 95`. -/
theorem c3_containment_witness :
    get_start_date CandleType.Minute 95 ≤ 95 ∧
    (95 : Int) < get_end_date CandleType.Minute 95 :=
  c3_containment 95 CandleType.Minute (by decide) (by decide) (Or.inr (by norm_num))

/-- C4: for month granularity over any span inside the chrono-valid
range, `get_dates_count` returns `12 * Δyear + Δmonth` of the month
boundaries, even when the month number of the ceiling is smaller than
that of the floor: the wrapping `u32` subtraction followed by the `i32`
cast recovers the signed month difference. -/
theorem c4_month_count (dfrom dto : Int) (hle : dfrom ≤ dto)
    (hlo : -8000000000000 ≤ dfrom) (hhi : dto ≤ 8000000000000) :
    get_dates_count CandleType.Month dfrom dto =
      12 * (yearOf (get_end_date CandleType.Month dto)
          - yearOf (get_start_date CandleType.Month dfrom))
        + (monthOf (get_end_date CandleType.Month dto)
          - monthOf (get_start_date CandleType.Month dfrom)) := by
  have hm1 := monthOf_range dfrom
  have hm2 := monthOf_range dto
  have hn2 := nextMonthM_range (monthOf dto) hm2.1 hm2.2
  have heF : get_start_date CandleType.Month dfrom
      = 86400 * daysFromCivil (yearOf dfrom) (monthOf dfrom) 1 := rfl
  have heT := month_end_eq dto
  have hexF := extract_at_sec (yearOf dfrom) (monthOf dfrom) hm1.1 hm1.2
  have hexT := extract_at_sec (nextMonthY (yearOf dto) (monthOf dto))
      (nextMonthM (monthOf dto)) hn2.1 hn2.2
  have hcF := month_containment dfrom
  have hcT := month_containment dto
  rw [heF] at hcF
  rw [heT] at hcT
  have hlt : daysFromCivil (yearOf dfrom) (monthOf dfrom) 1
      < daysFromCivil (nextMonthY (yearOf dto) (monthOf dto))
          (nextMonthM (monthOf dto)) 1 := by
    omega
  have hmono := monthStart_mono (yearOf dfrom) (monthOf dfrom)
    (nextMonthY (yearOf dto) (monthOf dto)) (nextMonthM (monthOf dto))
    hm1.1 hm1.2 hn2.1 hn2.2 hlt
  have hspF := month_succ_spacing (yearOf dfrom) (monthOf dfrom) hm1.1 hm1.2
  have hspT := month_succ_spacing (yearOf dto) (monthOf dto) hm2.1 hm2.2
  have hendF := (month_containment dfrom).2
  rw [month_end_eq dfrom] at hendF
  have hstT := (month_containment dto).1
  have hstT2 : 86400 * daysFromCivil (yearOf dto) (monthOf dto) 1 ≤ dto := hstT
  have hval : get_dates_count CandleType.Month dfrom dto
      = asUsize ((yearOf (get_end_date CandleType.Month dto)
            - yearOf (get_start_date CandleType.Month dfrom)) * 12
          + asI32 ((monthOf (get_end_date CandleType.Month dto)
            - monthOf (get_start_date CandleType.Month dfrom)) % 4294967296)) := rfl
  rw [hval, heF, heT, hexF.1, hexF.2, hexT.1, hexT.2]
  have hI32 : asI32 ((nextMonthM (monthOf dto) - monthOf dfrom) % 4294967296)
      = nextMonthM (monthOf dto) - monthOf dfrom := by
    unfold asI32
    omega
  rw [hI32]
  unfold asUsize
  omega

/-- Witness for C4 with both instants on 2000-12-15, where the ceiling
month (January) is numerically smaller than the floor month (December):
the count is 1. -/
theorem c4_month_count_witness :
    get_dates_count CandleType.Month 976838400 976838400 = 1 ∧
    12 * (yearOf (get_end_date CandleType.Month 976838400)
        - yearOf (get_start_date CandleType.Month 976838400))
      + (monthOf (get_end_date CandleType.Month 976838400)
        - monthOf (get_start_date CandleType.Month 976838400)) = 1 := by
  have h := c4_month_count 976838400 976838400 le_rfl (by norm_num) (by norm_num)
  exact ⟨h.trans (by decide), by decide⟩

/-! Claims about `CandlesCache`. -/

/-- The configured-granularity invariant: every stored candle carries a
granularity from the configured list. -/
def typesInvariant (s : CandlesCache) : Prop :=
  ∀ p ∈ s.candles_by_ids, p.2.candle_type ∈ s.candle_types

instance (s : CandlesCache) : Decidable (typesInvariant s) :=
  List.decidableBAll _ s.candles_by_ids

/-- States reachable through all four public mutating operations of
`CandlesCache`, including raw `insert`. -/
inductive ReachableOps : CandlesCache → Prop where
  | new (types : List CandleType) : ReachableOps (CandlesCache.new types)
  | insert (s : CandlesCache) (c : BidAskCandle) :
      ReachableOps s → ReachableOps (s.insert c)
  | createOrUpdate (s : CandlesCache) (datetime : Int) (instrument : String)
      (bid ask bidVol askVol now : Int) : ReachableOps s →
      ReachableOps (s.create_or_update datetime instrument bid ask bidVol askVol now)
  | removeBefore (s : CandlesCache) (t : Int) (og : Option CandleType)
      (s2 : CandlesCache) (n : Int) : ReachableOps s →
      s.remove_before t og = .ok (s2, n) → ReachableOps s2

/-- States reachable without raw `insert`: construction, tick fan-out and
retention only. -/
inductive ReachableSafe : CandlesCache → Prop where
  | new (types : List CandleType) : ReachableSafe (CandlesCache.new types)
  | createOrUpdate (s : CandlesCache) (datetime : Int) (instrument : String)
      (bid ask bidVol askVol now : Int) : ReachableSafe s →
      ReachableSafe (s.create_or_update datetime instrument bid ask bidVol askVol now)
  | removeBefore (s : CandlesCache) (t : Int) (og : Option CandleType)
      (s2 : CandlesCache) (n : Int) : ReachableSafe s →
      s.remove_before t og = .ok (s2, n) → ReachableSafe s2

/-- A candle of a granularity outside the configured set, as a caller may
hand to `insert`. -/
def rogueHourCandle : BidAskCandle :=
  { askData := CandleData.new 0 1 1
    bidData := CandleData.new 0 1 1
    candle_type := CandleType.Hour
    instrument := "X"
    datetime := 0 }

/-- C5 counterexample: `insert` performs no validation, so one public
operation on a freshly configured minute-only cache yields a reachable
state storing an hour candle, violating the configured-granularity
invariant. -/
theorem c5_counterexample :
    ReachableOps ((CandlesCache.new [CandleType.Minute]).insert rogueHourCandle) ∧
    ¬ typesInvariant ((CandlesCache.new [CandleType.Minute]).insert rogueHourCandle) :=
  ⟨ReachableOps.insert _ _ (ReachableOps.new _), by decide⟩

theorem couStep_types (datetime : Int) (instrument : String)
    (bid ask bidVol askVol : Int) (T0 : List CandleType) (g : CandleType)
    (m : List (CandleId × BidAskCandle)) (hg : g ∈ T0)
    (hm : ∀ p ∈ m, p.2.candle_type ∈ T0) :
    ∀ p ∈ couStep datetime instrument bid ask bidVol askVol m g,
      p.2.candle_type ∈ T0 := by
  intro p hp
  unfold couStep at hp
  dsimp only at hp
  rcases hfind : m.find? (fun q =>
      q.1 = BidAskCandle.generate_id instrument g (get_start_date g datetime)) with _ | q
  · rw [hfind] at hp
    simp only [mapInsert, List.mem_cons, List.mem_filter] at hp
    rcases hp with hp | hp
    · rw [hp]
      exact hg
    · exact hm p hp.1
  · rw [hfind] at hp
    rcases List.mem_map.mp hp with ⟨q2, hq2, hq2e⟩
    subst hq2e
    by_cases hid : q2.1 = BidAskCandle.generate_id instrument g (get_start_date g datetime)
    · rw [if_pos hid]
      exact hm q2 hq2
    · rw [if_neg hid]
      exact hm q2 hq2

theorem foldl_couStep_types (datetime : Int) (instrument : String)
    (bid ask bidVol askVol : Int) (T0 : List CandleType) :
    ∀ (T : List CandleType) (m : List (CandleId × BidAskCandle)),
      (∀ g ∈ T, g ∈ T0) → (∀ p ∈ m, p.2.candle_type ∈ T0) →
      ∀ p ∈ T.foldl (couStep datetime instrument bid ask bidVol askVol) m,
        p.2.candle_type ∈ T0 := by
  intro T
  induction T with
  | nil => intro m _ hm; exact hm
  | cons a rest ih =>
      intro m hT hm
      rw [List.foldl_cons]
      exact ih _ (fun g hgr => hT g (List.mem_cons_of_mem a hgr))
        (couStep_types datetime instrument bid ask bidVol askVol T0 a m
          (hT a (List.mem_cons_self a rest)) hm)

theorem retainCount_subset (f : CandleId × BidAskCandle → Bool) :
    ∀ (m : List (CandleId × BidAskCandle)) (p : CandleId × BidAskCandle),
      p ∈ (retainCount f m).1 → p ∈ m := by
  intro m
  induction m with
  | nil => intro p hp; exact absurd hp (List.not_mem_nil p)
  | cons q rest ih =>
      intro p hp
      unfold retainCount at hp
      dsimp only at hp
      by_cases hf : f q
      · rw [if_pos hf] at hp
        exact List.mem_cons_of_mem q (ih p hp)
      · rw [if_neg hf] at hp
        rcases List.mem_cons.mp hp with hpq | hp2
        · rw [hpq]
          exact List.mem_cons_self q rest
        · exact List.mem_cons_of_mem q (ih p hp2)

theorem retainBeforeAll_subset (dates : List (CandleType × Int)) :
    ∀ (m : List (CandleId × BidAskCandle))
      (r : List (CandleId × BidAskCandle) × Int),
      retainBeforeAll dates m = .ok r → ∀ p ∈ r.1, p ∈ m := by
  intro m
  induction m with
  | nil =>
      intro r hr p hp
      unfold retainBeforeAll at hr
      cases hr
      exact absurd hp (List.not_mem_nil p)
  | cons q rest ih =>
      intro r hr p hp
      unfold retainBeforeAll at hr
      split at hr
      · cases hr
      · split at hr
        · cases hr
        · rename_i r2 hrec
          split at hr
          · cases hr
            exact List.mem_cons_of_mem q (ih r2 hrec p hp)
          · cases hr
            rcases List.mem_cons.mp hp with hpq | hp2
            · rw [hpq]
              exact List.mem_cons_self q rest
            · exact List.mem_cons_of_mem q (ih r2 hrec p hp2)

/-- C5 amended: through `new`, `create_or_update` and `remove_before`
(every public mutating operation except raw `insert`), the
configured-granularity invariant holds in every reachable state, so the
bucket-floor map always has an entry for every stored bar. -/
theorem c5_types_invariant (s : CandlesCache) (h : ReachableSafe s) :
    typesInvariant s := by
  induction h with
  | new types =>
      intro p hp
      exact absurd hp (List.not_mem_nil p)
  | createOrUpdate s datetime instrument bid ask bidVol askVol now hs ih =>
      intro p hp
      exact foldl_couStep_types datetime instrument bid ask bidVol askVol
        s.candle_types s.candle_types s.candles_by_ids (fun g hg => hg) ih p hp
  | removeBefore s t og s2 n hs heq ih =>
      unfold CandlesCache.remove_before at heq
      rcases og with _ | g
      · dsimp only at heq
        split at heq
        · cases heq
        · rename_i r hr
          cases heq
          intro p hp
          exact ih p (retainBeforeAll_subset _ _ _ hr p hp)
      · dsimp only at heq
        cases heq
        intro p hp
        exact ih p (retainCount_subset _ _ p hp)

/-- Witness for C5 on a freshly constructed cache. -/
theorem c5_types_invariant_witness :
    typesInvariant (CandlesCache.new [CandleType.Minute]) :=
  c5_types_invariant _ (ReachableSafe.new _)

theorem datesGet_cons (q : CandleType × Int) (m : List (CandleType × Int))
    (g : CandleType) :
    datesGet (q :: m) g = if q.1 = g then some q.2 else datesGet m g := by
  unfold datesGet
  by_cases h : q.1 = g
  · rw [if_pos h, List.find?_cons_of_pos _ (by simp [h])]
    rfl
  · rw [if_neg h, List.find?_cons_of_neg _ (by simp [h])]

theorem datesGet_filter_ne (m : List (CandleType × Int)) (a g : CandleType)
    (h : ¬ g = a) :
    datesGet (m.filter (fun p => p.1 ≠ a)) g = datesGet m g := by
  induction m with
  | nil => rfl
  | cons q rest ih =>
      rw [List.filter_cons]
      by_cases hq : q.1 = a
      · rw [if_neg (by simp [hq]), ih, datesGet_cons,
          if_neg (fun hg : q.1 = g => h (by rw [← hg, hq]))]
      · rw [if_pos (by simp [hq]), datesGet_cons, datesGet_cons, ih]

theorem dates_fold_lookup (t : Int) :
    ∀ (T : List CandleType) (m : List (CandleType × Int)) (g : CandleType),
      datesGet (T.foldl
          (fun m g => (g, get_start_date g t) :: m.filter (fun p => p.1 ≠ g)) m) g
        = if g ∈ T then some (get_start_date g t) else datesGet m g := by
  intro T
  induction T with
  | nil =>
      intro m g
      rw [if_neg (List.not_mem_nil g)]
      rfl
  | cons a rest ih =>
      intro m g
      rw [List.foldl_cons, ih]
      by_cases hg : g ∈ rest
      · rw [if_pos hg, if_pos (List.mem_cons_of_mem a hg)]
      · rw [if_neg hg]
        by_cases hga : g = a
        · subst hga
          rw [if_pos (List.mem_cons_self g rest), datesGet_cons, if_pos rfl]
        · rw [if_neg (by simp [hga, hg]), datesGet_cons,
            if_neg (fun h => hga h.symm), datesGet_filter_ne m a g hga]

theorem collectAfter_eval (t : Int) (dates : List (CandleType × Int)) :
    ∀ (m : List (CandleId × BidAskCandle)),
      (∀ p ∈ m, datesGet dates p.2.candle_type
        = some (get_start_date p.2.candle_type t)) →
      collectAfter dates m
        = .ok ((m.filter
            (fun p => decide (get_start_date p.2.candle_type t ≤ p.2.datetime))).map
          (fun p => p.2)) := by
  intro m
  induction m with
  | nil => intro h; rfl
  | cons p rest ih =>
      intro h
      have hp := h p (List.mem_cons_self p rest)
      have hrest := ih (fun q hq => h q (List.mem_cons_of_mem p hq))
      unfold collectAfter
      rw [hp]
      dsimp only
      rw [hrest]
      dsimp only
      rw [List.filter_cons]
      by_cases hc : get_start_date p.2.candle_type t ≤ p.2.datetime
      · rw [if_pos hc, if_pos (by simpa using hc), List.map_cons]
      · rw [if_neg hc, if_neg (by simpa using hc)]

/-- C6: under the configured-granularity invariant, `get_after` returns
`none` exactly on an empty cache, and otherwise `some` of exactly the
stored bars whose own datetime is at least the bucket floor of the query
instant for their own granularity (possibly the empty sequence). -/
theorem c6_get_after_exact (s : CandlesCache) (t : Int) (hinv : typesInvariant s) :
    s.get_after t
      = .ok (if s.candles_by_ids.length = 0 then none
          else some ((s.candles_by_ids.filter
              (fun p => decide (get_start_date p.2.candle_type t ≤ p.2.datetime))).map
            (fun p => p.2))) := by
  unfold CandlesCache.get_after
  by_cases h0 : s.candles_by_ids.length = 0
  · rw [if_pos h0, if_pos h0]
  · rw [if_neg h0, if_neg h0]
    have hlook : ∀ p ∈ s.candles_by_ids,
        datesGet (s.calculate_candle_dates t) p.2.candle_type
          = some (get_start_date p.2.candle_type t) := by
      intro p hp
      have hfold := dates_fold_lookup t s.candle_types [] p.2.candle_type
      unfold CandlesCache.calculate_candle_dates
      rw [hfold, if_pos (hinv p hp)]
    rw [collectAfter_eval t _ s.candles_by_ids hlook]

/-- A well-typed minute candle used by witnesses. -/
def minuteCandle : BidAskCandle :=
  { askData := CandleData.new 30 2 1
    bidData := CandleData.new 30 1 1
    candle_type := CandleType.Minute
    instrument := "X"
    datetime := 0 }

/-- Witness for C6: a one-candle cache returns that candle. -/
theorem c6_get_after_exact_witness :
    ((CandlesCache.new [CandleType.Minute]).insert minuteCandle).get_after 0
      = .ok (some [minuteCandle]) := by
  have h := c6_get_after_exact
    ((CandlesCache.new [CandleType.Minute]).insert minuteCandle) 0 (by decide)
  exact h.trans (by decide)

/-! Claims about `CandlePricesCache` and the remaining cache claims. -/

theorem chain_map_datetime :
    ∀ l : List (Int × CandleData),
      List.Chain' (fun p q => p.1 < q.1) l →
      (∀ p ∈ l, p.2.datetime = p.1) →
      List.Chain' (fun a b : CandleData => a.datetime < b.datetime)
        (l.map (fun p => p.2)) := by
  intro l
  induction l with
  | nil => intro _ _; simp
  | cons a rest ih =>
      intro hs hc
      cases rest with
      | nil => simp
      | cons b rest2 =>
          rw [List.map_cons, List.map_cons, List.chain'_cons]
          constructor
          · have ha := hc a (by simp)
            have hb := hc b (by simp)
            have hab := (List.chain'_cons.mp hs).1
            omega
          · exact ih (List.chain'_cons.mp hs).2
              (fun p hp => hc p (List.mem_cons_of_mem a hp))

/-- A three-bar minute-granularity price cache used by C7. -/
def pricesFixture : CandlePricesCache :=
  { candle_type := CandleType.Minute
    prices_by_date :=
      [(0, CandleData.new 0 1 1), (60, CandleData.new 60 2 1),
        (120, CandleData.new 120 3 1)] }

/-- C7 counterexample: on a non-empty cache, querying an inverted range
trips the ordered-map invalid-range panic (modelled as `none`), so the
call fails instead of returning an empty result. -/
theorem c7_counterexample :
    CandlePricesCache.get_by_date_range pricesFixture 1 0 = none := rfl

/-- C7 amended: whenever `from ≤ to`, and also for arbitrary bounds on an
empty cache, on a well-formed cache (strictly increasing keys, each bar
stored at its own bucket-start timestamp) `get_by_date_range` returns
without failing exactly the bars whose key lies in `[from, to)`, in
ascending time order, and the empty sequence when none match; only a
non-empty cache queried with `from > to` panics. -/
theorem c7_range (c : CandlePricesCache) (dfrom dto : Int)
    (hok : dfrom ≤ dto ∨ c.prices_by_date = [])
    (hsort : List.Chain' (fun p q => p.1 < q.1) c.prices_by_date)
    (hkey : ∀ p ∈ c.prices_by_date, p.2.datetime = p.1) :
    c.get_by_date_range dfrom dto
      = some ((c.prices_by_date.filter
          (fun p => decide (dfrom ≤ p.1) && decide (p.1 < dto))).map (fun p => p.2)) ∧
    List.Chain' (fun a b : CandleData => a.datetime < b.datetime)
      ((c.prices_by_date.filter
          (fun p => decide (dfrom ≤ p.1) && decide (p.1 < dto))).map (fun p => p.2)) := by
  constructor
  · have hneg : ¬ (dto < dfrom ∧ c.prices_by_date ≠ []) := by
      rcases hok with h | h
      · exact fun hc => absurd hc.1 (by omega)
      · exact fun hc => hc.2 h
    unfold CandlePricesCache.get_by_date_range
    rw [if_neg hneg]
  · haveI : IsTrans (Int × CandleData) (fun p q : Int × CandleData => p.1 < q.1) :=
      ⟨fun a b c h1 h2 => lt_trans h1 h2⟩
    exact chain_map_datetime _ (hsort.sublist (List.filter_sublist _))
      (fun p hp => hkey p (List.mem_filter.mp hp).1)

/-- Witness for C7: the `[0, 120)` query on the three-bar fixture returns
the first two bars in ascending order. -/
theorem c7_range_witness :
    CandlePricesCache.get_by_date_range pricesFixture 0 120
      = some [CandleData.new 0 1 1, CandleData.new 60 2 1] ∧
    List.Chain' (fun a b : CandleData => a.datetime < b.datetime)
      [CandleData.new 0 1 1, CandleData.new 60 2 1] := by
  have hs : List.Chain' (fun p q : Int × CandleData => p.1 < q.1)
      pricesFixture.prices_by_date :=
    List.chain'_cons.mpr ⟨by norm_num,
      List.chain'_cons.mpr ⟨by norm_num, List.chain'_singleton _⟩⟩
  have h := c7_range pricesFixture 0 120 (Or.inl (by norm_num)) hs (by decide)
  exact ⟨h.1.trans (by decide),
    List.chain'_cons.mpr ⟨by decide, List.chain'_singleton _⟩⟩

/-- C8: because `new` calls `dedup()` before `sort()`, non-adjacent
duplicates survive: `[Minute, Hour, Minute]` yields the sorted list
`[Minute, Minute, Hour]`, which still contains a duplicate. -/
theorem c8_new_keeps_nonadjacent_duplicates :
    (CandlesCache.new
        [CandleType.Minute, CandleType.Hour, CandleType.Minute]).candle_types
      = [CandleType.Minute, CandleType.Minute, CandleType.Hour] ∧
    ¬ (CandlesCache.new
        [CandleType.Minute, CandleType.Hour, CandleType.Minute]).candle_types.Nodup ∧
    List.Chain' (fun a b : CandleType => a.toCode ≤ b.toCode)
      (CandlesCache.new
        [CandleType.Minute, CandleType.Hour, CandleType.Minute]).candle_types := by
  refine ⟨by decide, by decide, ?_⟩
  rw [show (CandlesCache.new
      [CandleType.Minute, CandleType.Hour, CandleType.Minute]).candle_types
    = [CandleType.Minute, CandleType.Minute, CandleType.Hour] by decide]
  exact List.chain'_cons.mpr ⟨by decide,
    List.chain'_cons.mpr ⟨by decide, List.chain'_singleton _⟩⟩

theorem retainCount_fst (f : CandleId × BidAskCandle → Bool) :
    ∀ m : List (CandleId × BidAskCandle),
      (retainCount f m).1 = m.filter (fun p => !(f p)) := by
  intro m
  induction m with
  | nil => rfl
  | cons p rest ih =>
      unfold retainCount
      dsimp only
      rw [List.filter_cons]
      by_cases hf : f p
      · rw [if_pos hf, if_neg (by simp [hf])]
        exact ih
      · rw [if_neg hf, if_pos (by simp [hf])]
        dsimp only
        rw [ih]

theorem retainCount_snd (f : CandleId × BidAskCandle → Bool) :
    ∀ m : List (CandleId × BidAskCandle),
      (retainCount f m).2 = ((m.filter f).length : Int) := by
  intro m
  induction m with
  | nil => rfl
  | cons p rest ih =>
      unfold retainCount
      dsimp only
      rw [List.filter_cons]
      by_cases hf : f p
      · rw [if_pos hf, if_pos (by simpa using hf)]
        dsimp only
        rw [ih, List.length_cons]
        push_cast
        ring
      · rw [if_neg hf, if_neg (by simpa using hf)]
        exact ih

/-- C9: `remove_before` with an explicit granularity removes exactly the
stored bars of that granularity whose datetime is at most the bucket
floor of the instant, returns the number removed, and every bar of a
different granularity stays in the cache. -/
theorem c9_remove_before_explicit (s : CandlesCache) (t : Int) (g : CandleType) :
    s.remove_before t (some g)
      = .ok ({ s with candles_by_ids := (s.candles_by_ids.filter
            (fun p => !(decide (p.2.datetime ≤ get_start_date g t) &&
              decide (p.2.candle_type = g)))) },
          ((s.candles_by_ids.filter
            (fun p => decide (p.2.datetime ≤ get_start_date g t) &&
              decide (p.2.candle_type = g))).length : Int)) ∧
    ∀ p ∈ s.candles_by_ids, p.2.candle_type ≠ g →
      p ∈ s.candles_by_ids.filter
        (fun p => !(decide (p.2.datetime ≤ get_start_date g t) &&
          decide (p.2.candle_type = g))) := by
  constructor
  · unfold CandlesCache.remove_before
    dsimp only
    rw [retainCount_fst, retainCount_snd]
  · intro p hp hne
    refine List.mem_filter.mpr ⟨hp, ?_⟩
    simp [hne]

/-- Witness for C9: removing hour bars from a minute-only cache removes
nothing, returns 0, and keeps the minute bar. -/
theorem c9_remove_before_witness :
    ((CandlesCache.new [CandleType.Minute]).insert minuteCandle).remove_before 0
        (some CandleType.Hour)
      = .ok ((CandlesCache.new [CandleType.Minute]).insert minuteCandle, 0) ∧
    (minuteCandle.get_id, minuteCandle) ∈
      ((CandlesCache.new [CandleType.Minute]).insert minuteCandle).candles_by_ids.filter
        (fun p => !(decide (p.2.datetime ≤ get_start_date CandleType.Hour 0) &&
          decide (p.2.candle_type = CandleType.Hour))) := by
  have h := c9_remove_before_explicit
    ((CandlesCache.new [CandleType.Minute]).insert minuteCandle) 0 CandleType.Hour
  exact ⟨h.1.trans (by decide),
    h.2 (minuteCandle.get_id, minuteCandle) (by decide) (by decide)⟩

end Candles
